import Mathlib

/-!
# Verification of the PyAutoLens prior-mapping and pipeline core

Shallow embedding of `auto_lens/prior.py` (Prior, UniformPrior, GaussianPrior,
TuplePrior, PriorModel, ClassMap, Config) and `auto_lens/analysis/pipeline.py`
(ModelAnalysis, HyperparameterAnalysis, MainPipeline, Analysis).

Modelling conventions:

* Python floats are embedded as exact rationals (`ℚ`).  The two irrational
  ingredients of `GaussianPrior.value_for` — `math.sqrt(2)` and
  `scipy.special.erfinv` — are external library calls; they are passed in as
  explicit parameters (`s2 : ℚ` and `erfinv : ℚ → ℚ`) so every definition stays
  executable, and theorems about the gaussian prior assume only the defining
  mathematical facts about the inverse error function (odd, zero at zero).
* A Python object's `__dict__` is stored as an association list in attribute
  assignment order.  CPython 2 iterates instance dictionaries in hash-slot
  order, not assignment order.  Wherever an iteration order is observable only
  up to permutation — `ClassMap.prior_models` and the Prior/TuplePrior
  attributes of a `PriorModel`, whose downstream results are sorted by id,
  counted, or passed as keyword arguments — the stored order stands in for it.
  The one place the dictionary order lands in an observable value is
  `TuplePrior.priors`, whose order becomes the reconstructed tuple's element
  order; there the CPython 2.7 iteration order is modelled faithfully
  (`py2StringHash` / `py2Slot` / `py2DictOrder`): ascending hash-slot order of
  the attribute names, exact for instance dictionaries of at most 5 entries
  whose names occupy pairwise distinct slots of the 8-slot small table (no
  probing, no resize) — which covers the `<arg>_0 .. <arg>_n` names of every
  tuple prior of arity at most 8, since such names differ only in their final
  digit and therefore occupy pairwise distinct slots.
* Fallible Python code (raising `TypeError` / `KeyError` / `AssertionError` /
  `PriorException`) is embedded with `Except`.
* Python 2's `map(f, xs, ys)` pads the shorter list with `None`; this is
  embedded by `zipPad`, and the `TypeError` that `None` arithmetic raises is
  produced at the corresponding match arm.
-/

namespace AutoLens

/-- The two prior distributions of `prior.py`: `UniformPrior(lower, upper)`
and `GaussianPrior(mean, sigma)`. -/
inductive Dist where
  | uniform (lower_limit upper_limit : ℚ)
  | gaussian (mean sigma : ℚ)
  deriving DecidableEq, Repr

/-- A `Prior` object: identity is the process-wide integer `id` assigned at
creation (`__eq__`/`__hash__` compare ids only); `dist` carries the
subtype-specific state. -/
structure Prior where
  id : Nat
  dist : Dist
  deriving DecidableEq, Repr

/-- `UniformPrior.value_for` (prior.py line 220):
`self.lower_limit + unit * (self.upper_limit - self.lower_limit)`. -/
def UniformPrior.value_for (lower_limit upper_limit unit : ℚ) : ℚ :=
  lower_limit + unit * (upper_limit - lower_limit)

/-- `GaussianPrior.value_for` (prior.py line 243):
`self.mean + (self.sigma * math.sqrt(2) * erfinv((unit * 2.0) - 1.0))`.
`s2` stands for the float `math.sqrt(2)` and `erfinv` for
`scipy.special.erfinv`. -/
def GaussianPrior.value_for (s2 : ℚ) (erfinv : ℚ → ℚ) (mean sigma unit : ℚ) : ℚ :=
  mean + sigma * s2 * erfinv (unit * 2 - 1)

/-- Dynamic dispatch of `value_for` on the two `Prior` subclasses. -/
def Prior.value_for (s2 : ℚ) (erfinv : ℚ → ℚ) (p : Prior) (unit : ℚ) : ℚ :=
  match p.dist with
  | .uniform lo hi => UniformPrior.value_for lo hi unit
  | .gaussian mean sigma => GaussianPrior.value_for s2 erfinv mean sigma unit

/-- The Python exceptions the prior subsystem can raise. -/
inductive PyErr where
  | typeError
  | keyError (id : Nat)
  deriving DecidableEq, Repr

/-- CPython 2.7's string hash (`string_hash` in stringobject.c, hash
randomization off, 64-bit build):
`x = ord(s[0]) << 7; for c in s: x = (1000003 * x) ^ ord(c); x ^= len(s)`,
all modulo 2^64, with the final value -1 (here 2^64 - 1) mapped to -2.
The low three bits — all that slot selection below consumes — are identical
on 32-bit builds, because the low bits of products and xors do not depend on
the truncation width. -/
def py2StringHash (s : String) : Nat :=
  match s.data with
  | [] => 0
  | c0 :: _ =>
    let x := s.data.foldl
      (fun x c => ((1000003 * x) % (2 ^ 64)) ^^^ c.toNat) ((c0.toNat <<< 7) % (2 ^ 64))
    let x := x ^^^ s.length
    if x = 2 ^ 64 - 1 then 2 ^ 64 - 2 else x

/-- The hash-table slot of an attribute name in a CPython 2.7 instance
dictionary in its small-table regime: 8 slots (`PyDict_MINSIZE`), first probe
at `hash & 7`. -/
def py2Slot (s : String) : Nat :=
  py2StringHash s % 8

/-- One step of a stable insertion sort by dictionary slot. -/
def insertBySlot (e : String × Prior) : List (String × Prior) → List (String × Prior)
  | [] => [e]
  | a :: as => if py2Slot e.1 ≤ py2Slot a.1 then e :: a :: as else a :: insertBySlot e as

/-- The iteration order of a CPython 2.7 instance dictionary holding the given
(assignment-ordered) attributes: iteration scans the 8 slots in ascending
index, so with at most 5 entries on pairwise distinct first-probe slots (no
collision probing, no resize) it visits the attributes in ascending slot
order.  The stable assignment-order tie-break is a stand-in for the collision
case, which distinct slots never trigger. -/
def py2DictOrder (attrs : List (String × Prior)) : List (String × Prior) :=
  attrs.foldr insertBySlot []

/-- A `TuplePrior`: its `__dict__` contents, stored as an association list of
attribute name to `Prior` in assignment order (prior.py line 289). -/
structure TuplePrior where
  attrs : List (String × Prior)
  deriving DecidableEq, Repr

/-- `TuplePrior.priors` (prior.py line 292): the `(name, Prior)` pairs of
`self.__dict__.iteritems()`, in CPython 2.7 dictionary iteration order —
ascending hash slot of the attribute name, not assignment order and not
element-index order. -/
def TuplePrior.priors (tp : TuplePrior) : List (String × Prior) :=
  py2DictOrder tp.attrs

/-- Lookup in the `arguments` dictionary, whose keys are `Prior` objects
compared by id; a missing key raises `KeyError`. -/
def lookupArgument (arguments : List (Prior × ℚ)) (p : Prior) : Except PyErr ℚ :=
  match arguments.find? (fun a => a.1.id == p.id) with
  | some a => Except.ok a.2
  | none => Except.error (PyErr.keyError p.id)

/-- Eager left-to-right effectful map, the evaluation order of a Python list
comprehension / eager `map`: the first raised exception propagates. -/
def mapME (f : α → Except ε β) : List α → Except ε (List β)
  | [] => Except.ok []
  | x :: xs => do
    let y ← f x
    let ys ← mapME f xs
    return y :: ys

/-- `TuplePrior.value_for_arguments` (prior.py line 294):
`tuple([arguments[prior[1]] for prior in self.priors])` — the contained
Priors' values in dictionary iteration order. -/
def TuplePrior.value_for_arguments (tp : TuplePrior) (arguments : List (Prior × ℚ)) :
    Except PyErr (List ℚ) :=
  mapME (fun pr => lookupArgument arguments pr.2) tp.priors

/-- An attribute slot of a `PriorModel`: either a direct `Prior` or a
`TuplePrior`. -/
inductive PriorAttr where
  | direct (p : Prior)
  | tup (tp : TuplePrior)
  deriving DecidableEq, Repr

/-- A `PriorModel` (prior.py line 246): the class it reconstructs (classes are
identified by an opaque numeral) plus its `__dict__` of Prior/TuplePrior
attributes in insertion order. -/
structure PriorModel where
  cls : Nat
  attrs : List (String × PriorAttr)
  deriving DecidableEq, Repr

/-- `PriorModel.direct_priors` (prior.py line 264): the attributes that are
`Prior` instances. -/
def PriorModel.direct_priors (pm : PriorModel) : List (String × Prior) :=
  pm.attrs.filterMap (fun a =>
    match a.2 with
    | .direct p => some (a.1, p)
    | .tup _ => none)

/-- `PriorModel.tuple_priors` (prior.py line 260): the attributes that are
`TuplePrior` instances. -/
def PriorModel.tuple_priors (pm : PriorModel) : List (String × TuplePrior) :=
  pm.attrs.filterMap (fun a =>
    match a.2 with
    | .direct _ => none
    | .tup tp => some (a.1, tp))

/-- `PriorModel.priors` (prior.py line 268): direct priors followed by every
prior inside every tuple prior.  May contain duplicates when priors are
shared; uniqueness is resolved at the `ClassMap` level. -/
def PriorModel.priors (pm : PriorModel) : List (String × Prior) :=
  pm.direct_priors ++ pm.tuple_priors.flatMap (fun t => t.2.priors)

/-- A constructor argument value of a reconstructed instance: a scalar float
or a tuple of floats. -/
inductive ArgVal where
  | scalar (q : ℚ)
  | tupleVal (qs : List ℚ)
  deriving DecidableEq, Repr

/-- A reconstructed instance: `self.cls(**model_arguments)` is embedded as the
class identifier plus the keyword arguments it was constructed with. -/
structure Instance where
  cls : Nat
  args : List (String × ArgVal)
  deriving DecidableEq, Repr

/-- `PriorModel.instance_for_arguments` (prior.py line 270): pulls
`arguments[prior]` for every direct prior, then delegates every tuple prior to
`value_for_arguments`, then constructs the class with the resulting keyword
arguments. -/
def PriorModel.instance_for_arguments (pm : PriorModel) (arguments : List (Prior × ℚ)) :
    Except PyErr Instance := do
  let direct ← mapME (fun t =>
    (lookupArgument arguments t.2).map (fun v => (t.1, ArgVal.scalar v))) pm.direct_priors
  let tups ← mapME (fun t =>
    (t.2.value_for_arguments arguments).map (fun vs => (t.1, ArgVal.tupleVal vs))) pm.tuple_priors
  return ⟨pm.cls, direct ++ tups⟩

/-- A `ClassMap` (a.k.a. `ModelMapper`): its named `PriorModel` attributes in
insertion order (the `config` attribute, filtered out by `prior_models`, is
not represented). -/
structure ClassMap where
  models : List (String × PriorModel)
  deriving DecidableEq, Repr

/-- `ClassMap.prior_models` (prior.py line 118): the `(name, PriorModel)`
pairs of the instance dictionary. -/
def ClassMap.prior_models (m : ClassMap) : List (String × PriorModel) :=
  m.models

/-- The generator expression inside `prior_set` (prior.py line 129): every
`(attribute_name, Prior)` pair of every owned prior model, in order. -/
def ClassMap.allPriors (m : ClassMap) : List (String × Prior) :=
  m.models.flatMap (fun t => t.2.priors)

/-- One insertion into the dictionary comprehension of `prior_set`: Python
dict insertion keyed on the `Prior` object (equality by id) — an existing
key keeps its slot but its value is replaced, a new key is appended. -/
def insertEntry (acc : List (String × Prior)) (e : String × Prior) :
    List (String × Prior) :=
  if acc.any (fun a => a.2.id == e.2.id) then
    acc.map (fun a => if a.2.id == e.2.id then e else a)
  else
    acc ++ [e]

/-- `ClassMap.prior_set` (prior.py line 129):
`{prior[1]: prior for _, prior_model in self.prior_models for prior in prior_model.priors}.values()`
— the `(name, Prior)` pairs deduplicated by the Prior's id. -/
def ClassMap.prior_set (m : ClassMap) : List (String × Prior) :=
  m.allPriors.foldl insertEntry []

/-- One step of insertion sort by Prior id (ascending). -/
def insertById (e : String × Prior) : List (String × Prior) → List (String × Prior)
  | [] => [e]
  | a :: as => if e.2.id ≤ a.2.id then e :: a :: as else a :: insertById e as

/-- `sorted(..., key=lambda prior: prior[1].id)`: ascending sort by id. -/
def sortById (l : List (String × Prior)) : List (String × Prior) :=
  l.foldr insertById []

/-- `ClassMap.priors` (prior.py line 139): the deduplicated priors sorted
ascending by id. -/
def ClassMap.priors (m : ClassMap) : List (String × Prior) :=
  sortById m.prior_set

/-- Python 2 `map(f, xs, ys)` zips its argument lists, padding the shorter
one with `None`. -/
def zipPad : List α → List β → List (Option α × Option β)
  | [], [] => []
  | [], b :: bs => (none, some b) :: zipPad [] bs
  | a :: as, [] => (some a, none) :: zipPad as []
  | a :: as, b :: bs => (some a, some b) :: zipPad as bs

/-- The argument-building line of `reconstruction_for_vector` (prior.py line
157): `dict(map(lambda prior, unit: (prior[1], prior[1].value_for(unit)), self.priors, vector))`.
When the lists have unequal length, Python 2's `map` pads with `None`: the
lambda then either subscripts `None` (`prior[1]`) or calls `value_for(None)`
(`None` arithmetic) — both raise `TypeError` while the argument list is being
built, before any `Reconstruction` exists. -/
def buildArguments (s2 : ℚ) (erfinv : ℚ → ℚ) (priorsList : List (String × Prior))
    (vector : List ℚ) : Except PyErr (List (Prior × ℚ)) :=
  mapME (fun pu =>
    match pu with
    | (some pr, some unit) => Except.ok (pr.2, pr.2.value_for s2 erfinv unit)
    | (some _, none) => Except.error PyErr.typeError
    | (none, _) => Except.error PyErr.typeError) (zipPad priorsList vector)

/-- A `Reconstruction` (prior.py line 298): one named attribute per
`PriorModel`, each holding a constructed instance. -/
structure Reconstruction where
  attrs : List (String × Instance)
  deriving DecidableEq, Repr

/-- `ClassMap.reconstruction_for_vector` (prior.py line 141): builds the
Prior-to-value dictionary by zipping `self.priors` with the vector, then sets
one reconstructed instance per prior model on a fresh `Reconstruction`. -/
def ClassMap.reconstruction_for_vector (s2 : ℚ) (erfinv : ℚ → ℚ) (m : ClassMap)
    (vector : List ℚ) : Except PyErr Reconstruction := do
  let arguments ← buildArguments s2 erfinv m.priors vector
  let recon ← mapME (fun t =>
    (t.2.instance_for_arguments arguments).map (fun inst => (t.1, inst))) m.prior_models
  return ⟨recon⟩

/-- A Python class as seen by `Config.get_for_nearest_ancestor`: its
`__module__`, `__name__` and `__bases__` (in declaration order). -/
inductive PyClass where
  | mk (module : String) (name : String) (bases : List PyClass)

/-- `__module__` of a class. -/
def PyClass.module : PyClass → String
  | .mk m _ _ => m

/-- `__name__` of a class. -/
def PyClass.name : PyClass → String
  | .mk _ n _ => n

/-- `__bases__` of a class. -/
def PyClass.bases : PyClass → List PyClass
  | .mk _ _ bs => bs

mutual

/-- The `family` generator of `get_for_nearest_ancestor` (prior.py line 347):
yields the class itself, then for each base in order the base's whole family —
a depth-first preorder of the ancestor graph. -/
def family : PyClass → List PyClass
  | .mk m n bases => .mk m n bases :: familyList bases

/-- `family` mapped over a list of bases, concatenated in order. -/
def familyList : List PyClass → List PyClass
  | [] => []
  | c :: cs => family c ++ familyList cs

end

/-- A parsed prior config entry, as returned by `Config.get` (prior.py line
380): the distribution tag (`"u"` or `"g"`) followed by its numeric
parameters. -/
structure PriorArr where
  tag : String
  params : List ℚ
  deriving DecidableEq, Repr

/-- The configuration store: `Config.has`/`Config.get` both consult the
parsed ini files, embedded as a partial map from
`(module_name, class_name, attribute_name)` to the parsed entry
(`has` is `isSome`, `get` is the value). -/
structure Config where
  entries : String → String → String → Option PriorArr

/-- The loop body of `get_for_nearest_ancestor`: scan a class list in order
and return the first config entry found. -/
def lookupChain (cfg : Config) (attr : String) : List PyClass → Option PriorArr
  | [] => none
  | c :: rest =>
    match cfg.entries c.module c.name attr with
    | some arr => some arr
    | none => lookupChain cfg attr rest

/-- `Config.get_for_nearest_ancestor` (prior.py line 331): scans `family cls`
for the first class whose config defines `attribute_name`; raises
`PriorException` with the message of prior.py line 357 when none does. -/
def Config.get_for_nearest_ancestor (cfg : Config) (cls : PyClass) (attr : String) :
    Except String PriorArr :=
  match lookupChain cfg attr (family cls) with
  | some arr => Except.ok arr
  | none => Except.error
      ("The prior config for " ++ cls.module ++ "." ++ cls.name ++
       " and the prior configs of its parents do no contain " ++ attr)

/-- `ModelAnalysis.Result` as consumed by the pipeline: the final lens and
source galaxies of the stage (pipeline.py line 125). -/
structure ModelResult (Lens Src : Type) where
  lens_galaxies : Lens
  source_galaxies : Src
  deriving DecidableEq, Repr

/-- `HyperparameterAnalysis.Result`: the final pixelization and
instrumentation of the stage (pipeline.py line 244). -/
structure HyperResult (Pix Ins : Type) where
  pixelization : Pix
  instrumentation : Ins
  deriving DecidableEq, Repr

/-- `MainPipeline` (pipeline.py line 251).  The analyses' `run` methods drive
the external optimizer/likelihood collaborators, which are outside this core;
each stage is therefore embedded as the function from its `run` arguments to
its `Result`. -/
structure MainPipeline (Img Msk Pix Ins Lens Src : Type) where
  model_analyses : List (Img → Msk → Pix → Ins → ModelResult Lens Src)
  hyperparameter_analysis : Img → Msk → Lens → Src → HyperResult Pix Ins

/-- The loop of `MainPipeline.run` (pipeline.py lines 293-306), with the two
result accumulators and the current pixelization/instrumentation threaded
explicitly: each stage runs the model analysis, runs the hyperparameter
analysis on the lens/source galaxies just produced, replaces the current
pixelization/instrumentation with the hyperparameter result's, and appends
both results. -/
def MainPipeline.runFrom (p : MainPipeline Img Msk Pix Ins Lens Src) (image : Img)
    (mask : Msk) :
    List (Img → Msk → Pix → Ins → ModelResult Lens Src) → Pix → Ins →
    List (ModelResult Lens Src) → List (HyperResult Pix Ins) →
    List (ModelResult Lens Src) × List (HyperResult Pix Ins)
  | [], _, _, model_results, hyperparameter_results =>
    (model_results, hyperparameter_results)
  | ma :: rest, pixelization, instrumentation, model_results, hyperparameter_results =>
    let model_result := ma image mask pixelization instrumentation
    let hyperparameter_result := p.hyperparameter_analysis image mask
      model_result.lens_galaxies model_result.source_galaxies
    MainPipeline.runFrom p image mask rest
      hyperparameter_result.pixelization hyperparameter_result.instrumentation
      (model_results ++ [model_result]) (hyperparameter_results ++ [hyperparameter_result])

/-- `MainPipeline.run` (pipeline.py line 266). -/
def MainPipeline.run (p : MainPipeline Img Msk Pix Ins Lens Src) (image : Img)
    (mask : Msk) (pixelization : Pix) (instrumentation : Ins) :
    List (ModelResult Lens Src) × List (HyperResult Pix Ins) :=
  MainPipeline.runFrom p image mask p.model_analyses pixelization instrumentation [] []

/-- An item recorded in a `ModelMapper`'s state: `ModelAnalysis` construction
attaches galaxy priors to the mapper, `HyperparameterAnalysis` construction
adds named model classes to it. -/
inductive MapperEntry where
  | galaxy (gp : Nat)
  | modelClass (name : String) (cls : Nat)
  deriving DecidableEq, Repr

/-- The contents of one `ModelMapper` object on the Python heap. -/
abbrev MapperContent := List MapperEntry

/-- The Python heap restricted to `ModelMapper` objects: index = object
reference.  Mapper references held by analyses are indices into this list, so
two analyses holding the same index alias the same mutable object. -/
structure PyHeap where
  mappers : List MapperContent
  deriving DecidableEq, Repr

/-- Mutate the mapper object at `ref` by appending entries to it. -/
def PyHeap.attach (h : PyHeap) (ref : Nat) (es : List MapperEntry) : PyHeap :=
  ⟨h.mappers.set ref ((h.mappers.getD ref []) ++ es)⟩

/-- Python evaluates a `def`'s default argument expressions once, when the
`def` statement runs.  Loading pipeline.py therefore allocates one
`mm.ModelMapper()` per `__init__` that defaults it, in textual order:
`ModelAnalysis.__init__` (line 14), `HyperparameterAnalysis.__init__`
(line 144), `Analysis.__init__` (line 312). -/
def modelAnalysisDefaultMapper : Nat := 0

/-- Default mapper reference of `HyperparameterAnalysis.__init__`. -/
def hyperparameterAnalysisDefaultMapper : Nat := 1

/-- Default mapper reference of `Analysis.__init__`. -/
def analysisDefaultMapper : Nat := 2

/-- Default `MultiNestWrapper` references, likewise one per `__init__`
(their contents are irrelevant here; only identity matters). -/
def modelAnalysisDefaultOptimizer : Nat := 0

/-- Default optimizer reference of `HyperparameterAnalysis.__init__`. -/
def hyperparameterAnalysisDefaultOptimizer : Nat := 1

/-- Default optimizer reference of `Analysis.__init__`. -/
def analysisDefaultOptimizer : Nat := 2

/-- The heap right after pipeline.py has been imported: three freshly
constructed, empty, pairwise-distinct default mappers. -/
def moduleLoadHeap : PyHeap := ⟨[[], [], []]⟩

/-- A constructed `ModelAnalysis` object: its galaxy-prior lists (galaxy
priors are identified by opaque numerals) and the references of the mapper
and optimizer it holds. -/
structure ModelAnalysisObj where
  lens_galaxy_priors : List Nat
  source_galaxy_priors : List Nat
  model_mapper : Nat
  non_linear_optimizer : Nat
  deriving DecidableEq, Repr

/-- `ModelAnalysis.__init__` (pipeline.py line 13): stores its arguments,
defaulting the mapper/optimizer to the shared module-load-time objects, then
— for every galaxy prior in `lens_galaxy_priors + source_galaxy_priors` —
calls `galaxy_prior.attach_to_model_mapper(model_mapper)`.
Modelled from the spec: `GalaxyPrior.attach_to_model_mapper` (module
`auto_lens/analysis/galaxy_prior.py`, absent from the sources) registers the
galaxy prior's priors on the given mapper, i.e. mutates the mapper object. -/
def ModelAnalysis.init (lens_galaxy_priors source_galaxy_priors : List Nat)
    (model_mapper non_linear_optimizer : Option Nat) (h : PyHeap) :
    ModelAnalysisObj × PyHeap :=
  let mapperRef := model_mapper.getD modelAnalysisDefaultMapper
  let optRef := non_linear_optimizer.getD modelAnalysisDefaultOptimizer
  (⟨lens_galaxy_priors, source_galaxy_priors, mapperRef, optRef⟩,
   h.attach mapperRef ((lens_galaxy_priors ++ source_galaxy_priors).map MapperEntry.galaxy))

/-- A constructed `HyperparameterAnalysis` object. -/
structure HyperparameterAnalysisObj where
  pixelization_class : Nat
  instrumentation_class : Nat
  model_mapper : Nat
  non_linear_optimizer : Nat
  deriving DecidableEq, Repr

/-- `HyperparameterAnalysis.__init__` (pipeline.py line 144): stores its
arguments (mapper/optimizer defaulting to the shared module-load-time
objects) and calls `model_mapper.add_class('pixelization', ...)` then
`model_mapper.add_class('instrumentation', ...)`, mutating the mapper. -/
def HyperparameterAnalysis.init (pixelization_class instrumentation_class : Nat)
    (model_mapper non_linear_optimizer : Option Nat) (h : PyHeap) :
    HyperparameterAnalysisObj × PyHeap :=
  let mapperRef := model_mapper.getD hyperparameterAnalysisDefaultMapper
  let optRef := non_linear_optimizer.getD hyperparameterAnalysisDefaultOptimizer
  (⟨pixelization_class, instrumentation_class, mapperRef, optRef⟩,
   h.attach mapperRef
     [MapperEntry.modelClass "pixelization" pixelization_class,
      MapperEntry.modelClass "instrumentation" instrumentation_class])

/-- A Python value passed as a keyword argument to the generalized
`Analysis`: a model class, a list (of galaxy priors / galaxies), or some
other object.  `truthy` is Python truthiness — an empty list is falsy. -/
inductive PyVal where
  | pyClass (c : Nat)
  | pyList (l : List Nat)
  | obj (o : Nat)
  deriving DecidableEq, Repr

/-- Python truthiness of a `PyVal`. -/
def PyVal.truthy : PyVal → Bool
  | .pyClass _ => true
  | .pyList l => !l.isEmpty
  | .obj _ => true

/-- A constructed generalized `Analysis` object (pipeline.py line 311): the
mapper/optimizer references, the attributes set from the constructor's
`**kwargs`, and `included_attributes` (the kwarg names, in order). -/
structure AnalysisObj where
  model_mapper : Nat
  non_linear_optimizer : Nat
  attrs : List (String × PyVal)
  included_attributes : List String
  deriving DecidableEq, Repr

/-- The `attribute_map` dict literal of `Analysis.__init__` (pipeline.py
line 317), in textual order. -/
def attributeMap : List (String × String) :=
  [("pixelization_class", "pixelization"),
   ("instrumentation_class", "instrumentation"),
   ("lens_galaxy_priors", "lens_galaxies"),
   ("source_galaxy_priors", "source_galaxies")]

/-- `Analysis.__init__` (pipeline.py line 312): stores mapper and optimizer
(defaulting to the shared module-load-time objects), sets one attribute per
keyword argument, and records the keyword names.  It contains no `raise` and
no validation: it cannot fail, and it does not touch the mapper. -/
def Analysis.init (kwargs : List (String × PyVal))
    (model_mapper non_linear_optimizer : Option Nat) (h : PyHeap) :
    AnalysisObj × PyHeap :=
  (⟨model_mapper.getD analysisDefaultMapper,
    non_linear_optimizer.getD analysisDefaultOptimizer,
    kwargs, kwargs.map (fun kv => kv.1)⟩, h)

/-- `self.missing_attributes` (pipeline.py line 326), derived from the
attribute map and the included attributes. -/
def AnalysisObj.missing_attributes (a : AnalysisObj) : List String :=
  (attributeMap.filter (fun kv => !a.included_attributes.contains kv.1)).map
    (fun kv => kv.2)

/-- `getattr(self, name, None)` on a generalized `Analysis`. -/
def AnalysisObj.getattrOpt (a : AnalysisObj) (name : String) : Option PyVal :=
  (a.attrs.find? (fun kv => kv.1 == name)).map (fun kv => kv.2)

/-- The `one_or_other` closure inside `Analysis.run` (pipeline.py line 329):
`is_model` is the truthiness of `getattr(self, model_name, None)`,
`is_instance` is `instance_name in kwargs`; both together or neither raises
an `AssertionError` naming the role. -/
def Analysis.one_or_other (a : AnalysisObj) (kwargs : List (String × PyVal))
    (model_name instance_name : String) : Except String Unit :=
  let is_model := ((a.getattrOpt model_name).map PyVal.truthy).getD false
  let is_instance := kwargs.any (fun kv => kv.1 == instance_name)
  if is_model && is_instance then
    Except.error (model_name ++ " already exists in analysis")
  else if !(is_model || is_instance) then
    Except.error (model_name ++ " is not defined so " ++ instance_name ++ " is required")
  else
    Except.ok ()

/-- `Analysis.run` (pipeline.py line 328): checks the four roles in textual
order and does nothing else — no optimizer interaction exists in this
method. -/
def Analysis.run (a : AnalysisObj) (kwargs : List (String × PyVal)) :
    Except String Unit := do
  Analysis.one_or_other a kwargs "pixelization_class" "pixelization"
  Analysis.one_or_other a kwargs "instrumentation_class" "instrumentation"
  Analysis.one_or_other a kwargs "lens_galaxy_priors" "lens_galaxies"
  Analysis.one_or_other a kwargs "source_galaxy_priors" "source_galaxies"

/-- Whether a role satisfies the exactly-one contract: a truthy model
attribute on the analysis XOR a concrete instance among the run kwargs. -/
def roleOk (a : AnalysisObj) (kwargs : List (String × PyVal))
    (model_name instance_name : String) : Bool :=
  Bool.xor (((a.getattrOpt model_name).map PyVal.truthy).getD false)
    (kwargs.any (fun kv => kv.1 == instance_name))

/-- `Analysis.run`'s check sequence generalized to any role list: run
`one_or_other` on each `(model_name, instance_name)` pair in order,
propagating the first error.  `Analysis.run` is this chain over
`attributeMap`. -/
def chainCheck (a : AnalysisObj) (kwargs : List (String × PyVal)) :
    List (String × String) → Except String Unit
  | [] => Except.ok ()
  | r :: rs => do
    Analysis.one_or_other a kwargs r.1 r.2
    chainCheck a kwargs rs

/-- The ids of a list of `(name, Prior)` entries, in order. -/
def idsOf (l : List (String × Prior)) : List Nat :=
  l.map (fun e => e.2.id)

/-- A concrete mapper: two prior models, ids 5 and 1 on the first
(one direct, one inside a tuple prior) and 3 and 1 on the second — the id-1
prior is shared by reference (tied). -/
def mapC1 : ClassMap :=
  ⟨[("sersic_1", ⟨10, [("intensity", .direct ⟨5, .uniform 0 1⟩),
                       ("centre", .tup ⟨[("centre_0", ⟨1, .uniform (-1) 1⟩)]⟩)]⟩),
    ("sersic_2", ⟨11, [("radius", .direct ⟨3, .gaussian 0 1⟩),
                       ("intensity", .direct ⟨1, .uniform (-1) 1⟩)]⟩)]⟩

/-- A mapper owning the same set of prior ids as `mapC1` but with different
attribute names, model structure and insertion order. -/
def mapC1b : ClassMap :=
  ⟨[("other", ⟨12, [("a", .direct ⟨3, .uniform 0 2⟩),
                    ("b", .direct ⟨5, .uniform 0 3⟩),
                    ("c", .direct ⟨1, .uniform 0 4⟩)]⟩)]⟩

/-- A mapper with exactly one prior, for the length-mismatch witness. -/
def mapC2 : ClassMap :=
  ⟨[("lens", ⟨20, [("einstein_radius", .direct ⟨0, .uniform 0 1⟩)]⟩)]⟩

/-- Two prior models where the second's `intensity` attribute has been
reassigned to reference the first's id-1 Prior object (one tie): naive total
2 + 2 priors, ids {0, 1} and {1, 2}. -/
def mapC4 : ClassMap :=
  ⟨[("galaxy_1", ⟨30, [("centre", .direct ⟨0, .uniform 0 1⟩),
                       ("intensity", .direct ⟨1, .uniform 0 5⟩)]⟩),
    ("galaxy_2", ⟨31, [("centre", .direct ⟨2, .uniform 0 1⟩),
                       ("intensity", .direct ⟨1, .uniform 0 5⟩)]⟩)]⟩

/-- A `TuplePrior` for a tuple argument named `phi`, attributes set in
element-index order exactly as `ClassMap.add_class` sets them.  The CPython
2.7 hashes place `phi_0` in dictionary slot 1 and `phi_1` in slot 0, so
iteration — and hence the reconstructed tuple — puts the `_1` prior first. -/
def tupC5 : TuplePrior :=
  ⟨[("phi_0", ⟨0, .uniform 0 1⟩), ("phi_1", ⟨1, .uniform 0 1⟩)]⟩

/-- An arguments dictionary resolving prior id 0 (the `phi_0` prior of
`tupC5`) to 0 and prior id 1 (its `phi_1` prior) to 7. -/
def argsC5 : List (Prior × ℚ) :=
  [(⟨0, .uniform 0 1⟩, 0), (⟨1, .uniform 0 1⟩, 7)]

/-- A `TuplePrior` for a tuple argument named `centre`, attributes set in
element-index order: here the hashes place `centre_0` in slot 4 and
`centre_1` in slot 5, so dictionary iteration happens to follow element-index
order. -/
def tupC5w : TuplePrior :=
  ⟨[("centre_0", ⟨0, .uniform 0 1⟩), ("centre_1", ⟨1, .uniform 0 1⟩)]⟩

/-- A concrete two-stage pipeline over numeric stand-ins for the image, mask,
pixelization, instrumentation and galaxy collections. -/
def pipeC7 : MainPipeline Nat Nat Nat Nat Nat Nat :=
  ⟨[fun image _ pixelization instrumentation =>
      ⟨image + pixelization, instrumentation + 1⟩,
    fun _ mask pixelization instrumentation =>
      ⟨mask * pixelization, instrumentation + 2⟩],
   fun image mask lens source => ⟨lens + source + image, mask + lens⟩⟩

/-! ## Lemmas about the dictionary-based deduplication of `prior_set` -/

theorem idsOf_map_replace (e : String × Prior) (acc : List (String × Prior)) :
    idsOf (acc.map (fun a => if a.2.id == e.2.id then e else a)) = idsOf acc := by
  induction acc with
  | nil => rfl
  | cons a as ih =>
    simp only [idsOf, List.map_cons] at ih ⊢
    by_cases h : a.2.id = e.2.id
    · rw [show (if (a.2.id == e.2.id) = true then e else a) = e from by simp [h], ih, h]
    · rw [show (if (a.2.id == e.2.id) = true then e else a) = a from by simp [h], ih]

theorem any_id_eq_mem (acc : List (String × Prior)) (e : String × Prior) :
    acc.any (fun a => a.2.id == e.2.id) = true ↔ e.2.id ∈ idsOf acc := by
  rw [List.any_eq_true]
  constructor
  · rintro ⟨a, ha, hae⟩
    exact List.mem_map.mpr ⟨a, ha, by simpa using hae.symm⟩
  · intro h
    obtain ⟨a, ha, hae⟩ := List.mem_map.mp h
    exact ⟨a, ha, by simp [hae]⟩

theorem idsOf_insertEntry (acc : List (String × Prior)) (e : String × Prior) :
    idsOf (insertEntry acc e) =
      if e.2.id ∈ idsOf acc then idsOf acc else idsOf acc ++ [e.2.id] := by
  unfold insertEntry
  by_cases h : e.2.id ∈ idsOf acc
  · rw [if_pos ((any_id_eq_mem acc e).mpr h), if_pos h, idsOf_map_replace]
  · rw [if_neg (fun hc => h ((any_id_eq_mem acc e).mp hc)), if_neg h]
    simp [idsOf]

theorem mem_idsOf_foldl (L : List (String × Prior)) :
    ∀ (acc : List (String × Prior)) (i : Nat),
      i ∈ idsOf (L.foldl insertEntry acc) ↔ i ∈ idsOf acc ∨ i ∈ idsOf L := by
  induction L with
  | nil => intro acc i; simp [idsOf]
  | cons e L ih =>
    intro acc i
    rw [List.foldl_cons, ih]
    rw [idsOf_insertEntry]
    by_cases h : e.2.id ∈ idsOf acc
    · rw [if_pos h]
      simp only [idsOf, List.map_cons, List.mem_cons]
      constructor
      · rintro (hi | hi)
        · exact Or.inl hi
        · exact Or.inr (Or.inr hi)
      · rintro (hi | hi | hi)
        · exact Or.inl hi
        · exact Or.inl (hi ▸ h)
        · exact Or.inr hi
    · rw [if_neg h]
      simp only [idsOf, List.map_cons, List.mem_cons, List.mem_append,
        List.mem_singleton]
      tauto

theorem nodup_idsOf_foldl (L : List (String × Prior)) :
    ∀ acc : List (String × Prior),
      (idsOf acc).Nodup → (idsOf (L.foldl insertEntry acc)).Nodup := by
  induction L with
  | nil => intro acc h; exact h
  | cons e L ih =>
    intro acc h
    rw [List.foldl_cons]
    apply ih
    rw [idsOf_insertEntry]
    by_cases hm : e.2.id ∈ idsOf acc
    · rwa [if_pos hm]
    · rw [if_neg hm]
      simp [List.nodup_append, h, hm]

theorem length_eq_length_idsOf (l : List (String × Prior)) :
    l.length = (idsOf l).length := by
  simp [idsOf]

theorem nodup_idsOf_prior_set (m : ClassMap) : (idsOf m.prior_set).Nodup :=
  nodup_idsOf_foldl _ [] (by simp [idsOf])

theorem mem_idsOf_prior_set (m : ClassMap) (i : Nat) :
    i ∈ idsOf m.prior_set ↔ i ∈ idsOf m.allPriors := by
  rw [ClassMap.prior_set, mem_idsOf_foldl]
  simp [idsOf]

/-! ## Lemmas about the insertion sort of `priors` -/

theorem perm_insertById (e : String × Prior) (l : List (String × Prior)) :
    (insertById e l).Perm (e :: l) := by
  induction l with
  | nil => exact List.Perm.refl _
  | cons a as ih =>
    unfold insertById
    by_cases h : e.2.id ≤ a.2.id
    · rw [if_pos h]
    · rw [if_neg h]
      exact (ih.cons a).trans (List.Perm.swap e a as)

theorem mem_insertById (x e : String × Prior) (l : List (String × Prior)) :
    x ∈ insertById e l ↔ x = e ∨ x ∈ l := by
  rw [(perm_insertById e l).mem_iff, List.mem_cons]

theorem pairwise_le_insertById (e : String × Prior) (l : List (String × Prior))
    (h : l.Pairwise (fun a b => a.2.id ≤ b.2.id)) :
    (insertById e l).Pairwise (fun a b => a.2.id ≤ b.2.id) := by
  induction l with
  | nil => simp [insertById]
  | cons a as ih =>
    rw [List.pairwise_cons] at h
    obtain ⟨ha, has⟩ := h
    unfold insertById
    by_cases hle : e.2.id ≤ a.2.id
    · rw [if_pos hle]
      refine List.Pairwise.cons ?_ (List.Pairwise.cons ha has)
      intro x hx
      rcases List.mem_cons.mp hx with hx | hx
      · exact hx ▸ hle
      · exact le_trans hle (ha x hx)
    · rw [if_neg hle]
      refine List.Pairwise.cons ?_ (ih has)
      intro x hx
      rcases (mem_insertById x e as).mp hx with hx | hx
      · exact hx ▸ le_of_not_le hle
      · exact ha x hx

theorem perm_sortById (l : List (String × Prior)) : (sortById l).Perm l := by
  induction l with
  | nil => exact List.Perm.refl _
  | cons e l ih =>
    rw [sortById, List.foldr_cons]
    exact (perm_insertById e _).trans (ih.cons e)

theorem pairwise_le_sortById (l : List (String × Prior)) :
    (sortById l).Pairwise (fun a b => a.2.id ≤ b.2.id) := by
  induction l with
  | nil => simp [sortById]
  | cons e l ih =>
    rw [sortById, List.foldr_cons]
    exact pairwise_le_insertById e _ ih

/-! ## Strictly sorted `Nat` lists with the same members are equal -/

theorem eq_of_pairwise_lt_of_mem_iff :
    ∀ (l1 l2 : List Nat), l1.Pairwise (· < ·) → l2.Pairwise (· < ·) →
      (∀ x, x ∈ l1 ↔ x ∈ l2) → l1 = l2 := by
  intro l1
  induction l1 with
  | nil =>
    intro l2 _ _ hmem
    cases l2 with
    | nil => rfl
    | cons b l2 => exact absurd ((hmem b).mpr (List.mem_cons_self b l2)) (List.not_mem_nil b)
  | cons a l1 ih =>
    intro l2 h1 h2 hmem
    cases l2 with
    | nil => exact absurd ((hmem a).mp (List.mem_cons_self a l1)) (List.not_mem_nil a)
    | cons b l2 =>
      rw [List.pairwise_cons] at h1 h2
      have hab : a = b := by
        rcases List.mem_cons.mp ((hmem a).mp (List.mem_cons_self a l1)) with h | h
        · exact h
        · rcases List.mem_cons.mp ((hmem b).mpr (List.mem_cons_self b l2)) with h' | h'
          · exact h'.symm
          · exact absurd (h2.1 a h) (not_lt_of_gt (h1.1 b h'))
      subst hab
      have htail : ∀ x, x ∈ l1 ↔ x ∈ l2 := by
        intro x
        constructor
        · intro hx
          rcases List.mem_cons.mp ((hmem x).mp (List.mem_cons_of_mem a hx)) with h | h
          · exact absurd (h ▸ h1.1 x hx) (lt_irrefl x)
          · exact h
        · intro hx
          rcases List.mem_cons.mp ((hmem x).mpr (List.mem_cons_of_mem a hx)) with h | h
          · exact absurd (h ▸ h2.1 x hx) (lt_irrefl x)
          · exact h
      rw [ih l2 h1.2 h2.2 htail]

/-! ## Properties of `ClassMap.priors` -/

theorem perm_idsOf_priors (m : ClassMap) :
    (idsOf m.priors).Perm (idsOf m.prior_set) :=
  (perm_sortById m.prior_set).map _

theorem nodup_idsOf_priors (m : ClassMap) : (idsOf m.priors).Nodup :=
  ((perm_idsOf_priors m).nodup_iff).mpr (nodup_idsOf_prior_set m)

theorem mem_idsOf_priors (m : ClassMap) (i : Nat) :
    i ∈ idsOf m.priors ↔ i ∈ idsOf m.allPriors := by
  rw [(perm_idsOf_priors m).mem_iff, mem_idsOf_prior_set]

theorem pairwise_lt_idsOf_priors (m : ClassMap) :
    (idsOf m.priors).Pairwise (· < ·) := by
  have hle : m.priors.Pairwise (fun a b => a.2.id ≤ b.2.id) :=
    pairwise_le_sortById m.prior_set
  have hne : m.priors.Pairwise (fun a b => a.2.id ≠ b.2.id) :=
    List.pairwise_map.mp (nodup_idsOf_priors m)
  exact List.pairwise_map.mpr ((hle.and hne).imp
    (fun h => lt_of_le_of_ne h.1 h.2))

/-- C1.  For every ClassMap, `priors` returns the priors of all owned
PriorModels deduplicated by id (every id of every owned prior appears, each
exactly once) and sorted strictly ascending by id; and because the id
sequence is a canonical function of the id set, any two mappers owning the
same set of prior ids — in particular the same unmodified mapper read twice —
yield the same sequence of ids. -/
theorem spec_C1_priors_unique_sorted_stable (m : ClassMap) :
    (idsOf m.priors).Pairwise (· < ·)
    ∧ (∀ i, i ∈ idsOf m.priors ↔ i ∈ idsOf m.allPriors)
    ∧ (∀ m' : ClassMap,
        (∀ i, i ∈ idsOf m.allPriors ↔ i ∈ idsOf m'.allPriors) →
        idsOf m.priors = idsOf m'.priors) := by
  refine ⟨pairwise_lt_idsOf_priors m, mem_idsOf_priors m, ?_⟩
  intro m' hset
  apply eq_of_pairwise_lt_of_mem_iff _ _ (pairwise_lt_idsOf_priors m)
    (pairwise_lt_idsOf_priors m')
  intro x
  rw [mem_idsOf_priors, mem_idsOf_priors, hset]

/-- Witness for C1: `mapC1` and `mapC1b` own the same prior-id set through
different models, names and insertion orders; the theorem forces their
`priors` id sequences to coincide (both are `[1, 3, 5]`). -/
theorem spec_C1_witness : idsOf mapC1.priors = idsOf mapC1b.priors :=
  (spec_C1_priors_unique_sorted_stable mapC1).2.2 mapC1b (by
    intro i
    simp [mapC1, mapC1b, ClassMap.allPriors, PriorModel.priors,
      PriorModel.direct_priors, PriorModel.tuple_priors, TuplePrior.priors,
      py2DictOrder, insertBySlot, idsOf]
    tauto)

/-! ## Counting deduplicated priors -/

theorem length_prior_set_eq_card (m : ClassMap) :
    m.prior_set.length = (idsOf m.allPriors).toFinset.card := by
  rw [length_eq_length_idsOf, ← List.toFinset_card_of_nodup (nodup_idsOf_prior_set m)]
  congr 1
  apply Finset.ext
  intro i
  simp only [List.mem_toFinset]
  exact mem_idsOf_prior_set m i

theorem length_priors_eq_card (m : ClassMap) :
    m.priors.length = (idsOf m.allPriors).toFinset.card := by
  rw [length_eq_length_idsOf, (perm_idsOf_priors m).length_eq,
    ← length_eq_length_idsOf]
  exact length_prior_set_eq_card m

theorem filter_mem_length_eq_card_inter (A B : List Nat) (hB : B.Nodup) :
    (B.filter (fun i => decide (i ∈ A))).length = (B.toFinset ∩ A.toFinset).card := by
  rw [← List.toFinset_card_of_nodup (hB.filter _)]
  congr 1
  apply Finset.ext
  intro i
  simp only [List.mem_toFinset, List.mem_filter, Finset.mem_inter, decide_eq_true_eq]

/-- C4.  A mapper owning two PriorModels whose own priors are
duplicate-free: the deduplicated `priors` count equals the naive total
(`len(A.priors) + len(B.priors)`) minus the number of ties (the priors of B
that reference — share an id with — priors of A), and every shared prior
counts exactly once in the deduplicated list. -/
theorem spec_C4_tied_priors_count (na nb : String) (pmA pmB : PriorModel)
    (hA : (idsOf pmA.priors).Nodup) (hB : (idsOf pmB.priors).Nodup) :
    (ClassMap.mk [(na, pmA), (nb, pmB)]).priors.length =
      pmA.priors.length + pmB.priors.length -
        ((idsOf pmB.priors).filter (fun i => decide (i ∈ idsOf pmA.priors))).length
    ∧ ∀ i, i ∈ idsOf pmA.priors → i ∈ idsOf pmB.priors →
        (idsOf (ClassMap.mk [(na, pmA), (nb, pmB)]).priors).count i = 1 := by
  have hall : (ClassMap.mk [(na, pmA), (nb, pmB)]).allPriors =
      pmA.priors ++ pmB.priors := by
    simp [ClassMap.allPriors]
  constructor
  · rw [length_priors_eq_card, hall]
    have hids : idsOf (pmA.priors ++ pmB.priors) =
        idsOf pmA.priors ++ idsOf pmB.priors := by
      simp [idsOf]
    rw [hids, List.toFinset_append]
    have hcard := Finset.card_union_add_card_inter (idsOf pmA.priors).toFinset
      (idsOf pmB.priors).toFinset
    have hAcard : (idsOf pmA.priors).toFinset.card = pmA.priors.length := by
      rw [List.toFinset_card_of_nodup hA, ← length_eq_length_idsOf]
    have hBcard : (idsOf pmB.priors).toFinset.card = pmB.priors.length := by
      rw [List.toFinset_card_of_nodup hB, ← length_eq_length_idsOf]
    have hinter := filter_mem_length_eq_card_inter (idsOf pmA.priors)
      (idsOf pmB.priors) hB
    rw [Finset.inter_comm] at hinter
    omega
  · intro i hiA _
    apply List.count_eq_one_of_mem (nodup_idsOf_priors _)
    rw [mem_idsOf_priors, hall]
    simp only [idsOf, List.map_append, List.mem_append]
    exact Or.inl hiA

/-- Witness for C4: in `mapC4` the two models have 2 + 2 priors with one tie
(the shared id-1 Prior), so `len(priors)` is 3 and the shared prior appears
exactly once. -/
theorem spec_C4_witness :
    mapC4.priors.length = 3 ∧ (idsOf mapC4.priors).count 1 = 1 := by
  have h := spec_C4_tied_priors_count "galaxy_1" "galaxy_2"
    ⟨30, [("centre", .direct ⟨0, .uniform 0 1⟩),
          ("intensity", .direct ⟨1, .uniform 0 5⟩)]⟩
    ⟨31, [("centre", .direct ⟨2, .uniform 0 1⟩),
          ("intensity", .direct ⟨1, .uniform 0 5⟩)]⟩
    (by decide) (by decide)
  exact ⟨h.1.trans (by decide), h.2 1 (by decide) (by decide)⟩

/-! ## Length mismatch in `reconstruction_for_vector` -/

theorem mapME_cons_head_error (f : α → Except ε β) (x : α) (xs : List α) (e : ε)
    (hx : f x = .error e) : mapME f (x :: xs) = .error e := by
  simp only [mapME, hx]
  rfl

theorem mapME_cons_tail_error (f : α → Except ε β) (x : α) (xs : List α) (y : β)
    (e : ε) (hx : f x = .ok y) (hxs : mapME f xs = .error e) :
    mapME f (x :: xs) = .error e := by
  simp only [mapME, hx, hxs]
  rfl

theorem buildArguments_length_mismatch (s2 : ℚ) (erfinv : ℚ → ℚ) :
    ∀ (ps : List (String × Prior)) (v : List ℚ), ps.length ≠ v.length →
      buildArguments s2 erfinv ps v = .error .typeError := by
  intro ps
  induction ps with
  | nil =>
    intro v h
    cases v with
    | nil => simp at h
    | cons b bs =>
      unfold buildArguments
      rw [show zipPad ([] : List (String × Prior)) (b :: bs) =
        (none, some b) :: zipPad [] bs from by simp [zipPad]]
      exact mapME_cons_head_error _ _ _ _ rfl
  | cons p ps ih =>
    intro v h
    cases v with
    | nil =>
      unfold buildArguments
      rw [show zipPad (p :: ps) ([] : List ℚ) =
        (some p, none) :: zipPad ps [] from by simp [zipPad]]
      exact mapME_cons_head_error _ _ _ _ rfl
    | cons u us =>
      have h' : ps.length ≠ us.length := by simpa using h
      have hh := ih us h'
      unfold buildArguments at hh ⊢
      rw [show zipPad (p :: ps) (u :: us) =
        (some p, some u) :: zipPad ps us from by simp [zipPad]]
      exact mapME_cons_tail_error _ _ _
        (p.2, p.2.value_for s2 erfinv u) _ rfl hh

/-- C2.  Every vector whose length differs from `len(priors)` makes
`reconstruction_for_vector` raise: Python 2's `map` pads the shorter of
`self.priors` and `vector` with `None`, and the lambda then raises
`TypeError` (either `None[1]` or `value_for(None)` arithmetic) while the
arguments dictionary is being built — on prior.py line 157, before the
`Reconstruction()` of line 159 is ever created, so no attribute of any
Reconstruction is set. -/
theorem spec_C2_wrong_length_fails (s2 : ℚ) (erfinv : ℚ → ℚ) (m : ClassMap)
    (v : List ℚ) (h : v.length ≠ m.priors.length) :
    ClassMap.reconstruction_for_vector s2 erfinv m v = .error .typeError := by
  have hb := buildArguments_length_mismatch s2 erfinv m.priors v
    (fun he => h he.symm)
  unfold ClassMap.reconstruction_for_vector
  rw [hb]
  rfl

/-- Witness for C2: the mapper `mapC2` has one prior; the empty vector (length
0 ≠ 1) raises the padding `TypeError` and yields no Reconstruction. -/
theorem spec_C2_witness :
    ClassMap.reconstruction_for_vector 0 (fun x => x) mapC2 [] =
      .error .typeError :=
  spec_C2_wrong_length_fails 0 (fun x => x) mapC2 [] (by decide)

/-! ## TuplePrior value ordering -/

theorem mapME_ok_of_forall (f : α → Except ε β) :
    ∀ l : List α, (∀ x ∈ l, ∃ y, f x = .ok y) →
      ∃ ys, mapME f l = .ok ys
        ∧ ∀ k : Nat, ys[k]? = (l[k]?).bind (fun x => (f x).toOption) := by
  intro l
  induction l with
  | nil =>
    intro _
    exact ⟨[], rfl, fun k => by simp⟩
  | cons x xs ih =>
    intro h
    obtain ⟨y, hy⟩ := h x (List.mem_cons_self x xs)
    obtain ⟨ys, hys, hk⟩ := ih (fun z hz => h z (List.mem_cons_of_mem x hz))
    refine ⟨y :: ys, ?_, ?_⟩
    · simp only [mapME, hy, hys]
      rfl
    · intro k
      cases k with
      | zero => simp [hy, Except.toOption]
      | succ k => simpa using hk k

/-- C5 as the code actually behaves: when every contained Prior is present in
the arguments map, `TuplePrior.value_for_arguments` succeeds and returns the
values in the iteration order of the TuplePrior attribute dictionary —
ascending CPython 2.7 hash slot of the attribute names (`TuplePrior.priors`),
which is independent of assignment order and need not be `_0, _1, ...`
element-index order; whether it matches index order depends on the hash of
the attribute names (it does for `centre_0`/`centre_1`, it does not for
`phi_0`/`phi_1`). -/
theorem spec_C5_values_follow_attr_order (tp : TuplePrior)
    (arguments : List (Prior × ℚ))
    (h : ∀ pr ∈ tp.priors, ∃ a ∈ arguments, a.1.id = pr.2.id) :
    ∃ vs, tp.value_for_arguments arguments = .ok vs
      ∧ ∀ k : Nat, vs[k]? =
          (tp.priors[k]?).bind (fun pr => (lookupArgument arguments pr.2).toOption) := by
  apply mapME_ok_of_forall
  intro pr hpr
  obtain ⟨a, ha, hae⟩ := h pr hpr
  have hs : (arguments.find? (fun a => a.1.id == pr.2.id)).isSome := by
    rw [List.find?_isSome]
    exact ⟨a, ha, by simp [hae]⟩
  obtain ⟨a', ha'⟩ := Option.isSome_iff_exists.mp hs
  exact ⟨a'.2, by simp [lookupArgument, ha']⟩

/-- Counterexample to C5 as stated: `tupC5` is a TuplePrior for a tuple
argument named `phi`, with `phi_0` and `phi_1` set in index order; CPython
2.7 hashes `phi_0` to dictionary slot 1 and `phi_1` to slot 0, so
`iteritems` yields `phi_1` first, and with the arguments map resolving the
`phi_0` Prior (id 0) to 0 and the `phi_1` Prior (id 1) to 7 the code returns
the tuple `(7, 0)` — not the element-index order `(0, 7)` the claim
requires. -/
theorem spec_C5_counterexample :
    tupC5.value_for_arguments argsC5 = .ok [7, 0]
    ∧ tupC5.value_for_arguments argsC5 ≠ .ok [0, 7] := by
  have h1 : tupC5.value_for_arguments argsC5 = .ok [7, 0] := rfl
  refine ⟨h1, fun hc => ?_⟩
  have h2 : ([7, 0] : List ℚ) = [0, 7] := Except.ok.inj (h1.symm.trans hc)
  exact absurd h2 (by decide)

/-- Witness for the corrected C5: on `tupC5w` (`centre_0`/`centre_1`, whose
hash slots happen to be ascending in index order) the theorem applies and the
values come back in the dictionary iteration order. -/
theorem spec_C5_witness :
    ∃ vs, tupC5w.value_for_arguments argsC5 = .ok vs
      ∧ ∀ k : Nat, vs[k]? =
          (tupC5w.priors[k]?).bind (fun pr => (lookupArgument argsC5 pr.2).toOption) :=
  spec_C5_values_follow_attr_order tupC5w argsC5 (by decide)

/-! ## Nearest-ancestor config lookup -/

theorem familyList_eq_flatMap : ∀ cs : List PyClass, familyList cs = cs.flatMap family := by
  intro cs
  induction cs with
  | nil => rfl
  | cons c cs ih => simp [familyList, List.flatMap_cons, ih]

theorem lookupChain_spec (cfg : Config) (attr : String) :
    ∀ l : List PyClass,
      (∃ pre c post, l = pre ++ c :: post
        ∧ (∀ c' ∈ pre, cfg.entries c'.module c'.name attr = none)
        ∧ (∃ arr, cfg.entries c.module c.name attr = some arr
            ∧ lookupChain cfg attr l = some arr))
      ∨ ((∀ c' ∈ l, cfg.entries c'.module c'.name attr = none)
          ∧ lookupChain cfg attr l = none) := by
  intro l
  induction l with
  | nil => exact Or.inr ⟨fun c hc => absurd hc (List.not_mem_nil c), rfl⟩
  | cons c rest ih =>
    cases hc : cfg.entries c.module c.name attr with
    | some arr =>
      exact Or.inl ⟨[], c, rest, rfl, fun c' hc' => absurd hc' (List.not_mem_nil c'),
        arr, hc, by simp [lookupChain, hc]⟩
    | none =>
      rcases ih with ⟨pre, c1, post, heq, hpre, arr, harr, hlook⟩ | ⟨hall, hlook⟩
      · refine Or.inl ⟨c :: pre, c1, post, by simp [heq], ?_, arr, harr,
          by simp [lookupChain, hc, hlook]⟩
        intro c' hc'
        rcases List.mem_cons.mp hc' with h | h
        · exact h ▸ hc
        · exact hpre c' h
      · refine Or.inr ⟨?_, by simp [lookupChain, hc, hlook]⟩
        intro c' hc'
        rcases List.mem_cons.mp hc' with h | h
        · exact h ▸ hc
        · exact hall c' h

/-- C6.  `get_for_nearest_ancestor` visits `cls` and then its direct and
transitive ancestors in depth-first preorder (the class itself, then each
base's entire family in turn) and returns the first config entry found along
that order; if no visited class defines the attribute, it fails with a
`PriorException` whose message names the class and the attribute. -/
theorem spec_C6_nearest_ancestor (cfg : Config) (cls : PyClass) (attr : String) :
    family cls = cls :: cls.bases.flatMap family
    ∧ ((∃ pre c post, family cls = pre ++ c :: post
          ∧ (∀ c' ∈ pre, cfg.entries c'.module c'.name attr = none)
          ∧ (∃ arr, cfg.entries c.module c.name attr = some arr
              ∧ cfg.get_for_nearest_ancestor cls attr = .ok arr))
        ∨ ((∀ c' ∈ family cls, cfg.entries c'.module c'.name attr = none)
            ∧ cfg.get_for_nearest_ancestor cls attr = .error
                ("The prior config for " ++ cls.module ++ "." ++ cls.name ++
                 " and the prior configs of its parents do no contain " ++ attr))) := by
  constructor
  · cases cls with
    | mk m n bases => simp [family, PyClass.bases, familyList_eq_flatMap]
  · rcases lookupChain_spec cfg attr (family cls) with
      ⟨pre, c, post, heq, hpre, arr, harr, hlook⟩ | ⟨hall, hlook⟩
    · exact Or.inl ⟨pre, c, post, heq, hpre, arr, harr,
        by simp [Config.get_for_nearest_ancestor, hlook]⟩
    · exact Or.inr ⟨hall, by simp [Config.get_for_nearest_ancestor, hlook]⟩

/-! ## Role validation of the generalized Analysis -/

theorem except_bind_ok (a : α) (f : α → Except ε β) :
    (Except.ok a >>= f) = f a := rfl

theorem except_bind_error (e : ε) (f : α → Except ε β) :
    ((Except.error e : Except ε α) >>= f) = Except.error e := rfl

theorem one_or_other_cases (a : AnalysisObj) (kw : List (String × PyVal))
    (mn inst : String) :
    (Analysis.one_or_other a kw mn inst = .ok () ∧ roleOk a kw mn inst = true)
    ∨ (roleOk a kw mn inst = false
       ∧ (Analysis.one_or_other a kw mn inst = .error (mn ++ " already exists in analysis")
          ∨ Analysis.one_or_other a kw mn inst =
              .error (mn ++ " is not defined so " ++ inst ++ " is required"))) := by
  unfold Analysis.one_or_other roleOk
  cases ((a.getattrOpt mn).map PyVal.truthy).getD false <;>
    cases kw.any (fun kv => kv.1 == inst) <;> simp

theorem run_eq_chainCheck (a : AnalysisObj) (kw : List (String × PyVal)) :
    Analysis.run a kw = chainCheck a kw attributeMap := by
  unfold Analysis.run attributeMap
  cases h1 : Analysis.one_or_other a kw "pixelization_class" "pixelization" <;>
    cases h2 : Analysis.one_or_other a kw "instrumentation_class" "instrumentation" <;>
    cases h3 : Analysis.one_or_other a kw "lens_galaxy_priors" "lens_galaxies" <;>
    cases h4 : Analysis.one_or_other a kw "source_galaxy_priors" "source_galaxies" <;>
    simp [chainCheck, h1, h2, h3, h4, except_bind_ok, except_bind_error]

theorem chainCheck_spec (a : AnalysisObj) (kw : List (String × PyVal)) :
    ∀ roles : List (String × String),
      (chainCheck a kw roles = .ok () ↔ ∀ r ∈ roles, roleOk a kw r.1 r.2 = true)
      ∧ (∀ e, chainCheck a kw roles = .error e →
          ∃ r ∈ roles, roleOk a kw r.1 r.2 = false
            ∧ (e = r.1 ++ " already exists in analysis"
               ∨ e = r.1 ++ " is not defined so " ++ r.2 ++ " is required")) := by
  intro roles
  induction roles with
  | nil =>
    constructor
    · simp [chainCheck]
    · intro e he
      simp [chainCheck] at he
  | cons r rs ih =>
    rcases one_or_other_cases a kw r.1 r.2 with ⟨h1, r1⟩ | ⟨r1, h1 | h1⟩
    · constructor
      · rw [show chainCheck a kw (r :: rs) = chainCheck a kw rs from by
          simp [chainCheck, h1, except_bind_ok]]
        rw [ih.1]
        simp [r1]
      · intro e he
        rw [show chainCheck a kw (r :: rs) = chainCheck a kw rs from by
          simp [chainCheck, h1, except_bind_ok]] at he
        obtain ⟨r', hr', hro, hmsg⟩ := ih.2 e he
        exact ⟨r', List.mem_cons_of_mem r hr', hro, hmsg⟩
    · have hch : chainCheck a kw (r :: rs) =
          .error (r.1 ++ " already exists in analysis") := by
        simp [chainCheck, h1, except_bind_error]
      constructor
      · rw [hch]
        simp [r1]
      · intro e he
        rw [hch] at he
        exact ⟨r, List.mem_cons_self r rs, r1,
          Or.inl (Except.error.inj he).symm⟩
    · have hch : chainCheck a kw (r :: rs) =
          .error (r.1 ++ " is not defined so " ++ r.2 ++ " is required") := by
        simp [chainCheck, h1, except_bind_error]
      constructor
      · rw [hch]
        simp [r1]
      · intro e he
        rw [hch] at he
        exact ⟨r, List.mem_cons_self r rs, r1,
          Or.inr (Except.error.inj he).symm⟩

/-- Counterexample to C3 as stated: an Analysis constructed with no model
class and no instance for any role — a violation of the exactly-one contract
for all four roles — is constructed successfully (`Analysis.__init__`
contains no validation and cannot fail; the object simply exists, holding the
default mapper/optimizer and no attributes).  The configuration error appears
only when `run` is invoked. -/
theorem spec_C3_counterexample :
    (Analysis.init [] none none moduleLoadHeap).1 =
      ⟨analysisDefaultMapper, analysisDefaultOptimizer, [], []⟩
    ∧ Analysis.run (Analysis.init [] none none moduleLoadHeap).1 [] =
        .error "pixelization_class is not defined so pixelization is required" := by
  constructor
  · rfl
  · rfl

/-- C3 amended: the exactly-one validation of the four roles happens at the
start of `Analysis.run` — before any optimizer interaction (the method does
nothing else) — not at construction: `run` succeeds iff every role has
exactly one of a truthy model attribute (set at construction) or a concrete
instance (passed to `run`), and otherwise raises an `AssertionError` naming
the offending role. -/
theorem spec_C3_validation_at_run (a : AnalysisObj) (kw : List (String × PyVal)) :
    (Analysis.run a kw = .ok () ↔ ∀ r ∈ attributeMap, roleOk a kw r.1 r.2 = true)
    ∧ (∀ e, Analysis.run a kw = .error e →
        ∃ r ∈ attributeMap, roleOk a kw r.1 r.2 = false
          ∧ (e = r.1 ++ " already exists in analysis"
             ∨ e = r.1 ++ " is not defined so " ++ r.2 ++ " is required")) := by
  rw [run_eq_chainCheck a kw]
  exact chainCheck_spec a kw attributeMap

/-- Witness for the amended C3: an Analysis constructed with a pixelization
model class, run with a pixelization instance as well — the theorem pins the
resulting error to the pixelization role. -/
theorem spec_C3_witness :
    ∃ r ∈ attributeMap,
      roleOk (Analysis.init [("pixelization_class", .pyClass 7)] none none
          moduleLoadHeap).1
        [("pixelization", .obj 1), ("instrumentation", .obj 2),
         ("lens_galaxies", .pyList [3]), ("source_galaxies", .pyList [4])]
        r.1 r.2 = false
      ∧ ("pixelization_class already exists in analysis" =
            r.1 ++ " already exists in analysis"
         ∨ "pixelization_class already exists in analysis" =
            r.1 ++ " is not defined so " ++ r.2 ++ " is required") :=
  (spec_C3_validation_at_run _ _).2
    "pixelization_class already exists in analysis" rfl

/-! ## Pipeline sequencing -/

theorem runFrom_append {Img Msk Pix Ins Lens Src : Type}
    (p : MainPipeline Img Msk Pix Ins Lens Src) (image : Img) (mask : Msk) :
    ∀ (analyses : List (Img → Msk → Pix → Ins → ModelResult Lens Src))
      (pix : Pix) (ins : Ins) (accM : List (ModelResult Lens Src))
      (accH : List (HyperResult Pix Ins)),
      MainPipeline.runFrom p image mask analyses pix ins accM accH =
        (accM ++ (MainPipeline.runFrom p image mask analyses pix ins [] []).1,
         accH ++ (MainPipeline.runFrom p image mask analyses pix ins [] []).2) := by
  intro analyses
  induction analyses with
  | nil => intro pix ins accM accH; simp [MainPipeline.runFrom]
  | cons ma rest ih =>
    intro pix ins accM accH
    simp only [MainPipeline.runFrom, List.nil_append]
    rw [ih _ _ (accM ++ [_]) (accH ++ [_]), ih _ _ [_] [_]]
    simp

theorem runFrom_props {Img Msk Pix Ins Lens Src : Type}
    (p : MainPipeline Img Msk Pix Ins Lens Src) (image : Img) (mask : Msk) :
    ∀ (analyses : List (Img → Msk → Pix → Ins → ModelResult Lens Src))
      (pix : Pix) (ins : Ins),
      (MainPipeline.runFrom p image mask analyses pix ins [] []).1.length = analyses.length
      ∧ (MainPipeline.runFrom p image mask analyses pix ins [] []).2.length = analyses.length
      ∧ (∀ (k : Nat) (mr : ModelResult Lens Src),
          (MainPipeline.runFrom p image mask analyses pix ins [] []).1[k]? = some mr →
          (MainPipeline.runFrom p image mask analyses pix ins [] []).2[k]? =
            some (p.hyperparameter_analysis image mask mr.lens_galaxies mr.source_galaxies))
      ∧ ((MainPipeline.runFrom p image mask analyses pix ins [] []).1[0]? =
          (analyses[0]?).map (fun ma => ma image mask pix ins))
      ∧ (∀ (k : Nat) (hr : HyperResult Pix Ins)
            (ma : Img → Msk → Pix → Ins → ModelResult Lens Src),
          (MainPipeline.runFrom p image mask analyses pix ins [] []).2[k]? = some hr →
          analyses[k + 1]? = some ma →
          (MainPipeline.runFrom p image mask analyses pix ins [] []).1[k + 1]? =
            some (ma image mask hr.pixelization hr.instrumentation)) := by
  intro analyses
  induction analyses with
  | nil =>
    intro pix ins
    simp [MainPipeline.runFrom]
  | cons ma rest ih =>
    intro pix ins
    have hstep : MainPipeline.runFrom p image mask (ma :: rest) pix ins [] [] =
        ([ma image mask pix ins] ++
          (MainPipeline.runFrom p image mask rest
            (p.hyperparameter_analysis image mask (ma image mask pix ins).lens_galaxies
              (ma image mask pix ins).source_galaxies).pixelization
            (p.hyperparameter_analysis image mask (ma image mask pix ins).lens_galaxies
              (ma image mask pix ins).source_galaxies).instrumentation [] []).1,
         [p.hyperparameter_analysis image mask (ma image mask pix ins).lens_galaxies
            (ma image mask pix ins).source_galaxies] ++
          (MainPipeline.runFrom p image mask rest
            (p.hyperparameter_analysis image mask (ma image mask pix ins).lens_galaxies
              (ma image mask pix ins).source_galaxies).pixelization
            (p.hyperparameter_analysis image mask (ma image mask pix ins).lens_galaxies
              (ma image mask pix ins).source_galaxies).instrumentation [] []).2) := by
      simp only [MainPipeline.runFrom, List.nil_append]
      rw [runFrom_append p image mask rest _ _ [_] [_]]
    obtain ⟨ih1, ih2, ih3, ih4, ih5⟩ := ih
      (p.hyperparameter_analysis image mask (ma image mask pix ins).lens_galaxies
        (ma image mask pix ins).source_galaxies).pixelization
      (p.hyperparameter_analysis image mask (ma image mask pix ins).lens_galaxies
        (ma image mask pix ins).source_galaxies).instrumentation
    rw [hstep]
    refine ⟨by simp [ih1], by simp [ih2], ?_, by simp, ?_⟩
    · intro k mr hmr
      cases k with
      | zero =>
        simp only [List.singleton_append, List.getElem?_cons_zero, Option.some.injEq] at hmr ⊢
        rw [← hmr]
      | succ k =>
        simp only [List.singleton_append, List.getElem?_cons_succ] at hmr ⊢
        exact ih3 k mr hmr
    · intro k hr ma' hhr hma
      cases k with
      | zero =>
        simp only [List.singleton_append, List.getElem?_cons_zero, Option.some.injEq] at hhr
        simp only [List.getElem?_cons_succ] at hma
        simp only [List.singleton_append, List.getElem?_cons_succ]
        rw [ih4, hma, Option.map_some', hhr]
      | succ k =>
        simp only [List.singleton_append, List.getElem?_cons_succ] at hhr hma ⊢
        exact ih5 k hr ma' hhr hma

/-- Witness for C6 at a concrete diamond hierarchy: a class `C` with bases
`A` (whose own base `Base` is configured) and `B` (configured directly); the
depth-first family order is `C, A, Base, B`, so `Base`'s entry is found
before `B`'s. -/
theorem spec_C6_witness :
    family (PyClass.mk "m" "C"
        [PyClass.mk "m" "A" [PyClass.mk "m" "Base" []], PyClass.mk "m" "B" []]) =
      PyClass.mk "m" "C"
          [PyClass.mk "m" "A" [PyClass.mk "m" "Base" []], PyClass.mk "m" "B" []] ::
        (PyClass.mk "m" "C"
            [PyClass.mk "m" "A" [PyClass.mk "m" "Base" []],
             PyClass.mk "m" "B" []]).bases.flatMap family :=
  (spec_C6_nearest_ancestor ⟨fun _ _ _ => none⟩
    (PyClass.mk "m" "C"
      [PyClass.mk "m" "A" [PyClass.mk "m" "Base" []], PyClass.mk "m" "B" []])
    "x").1

/-- C7.  `MainPipeline.run` over the ordered model analyses: the two result
lists are in stage order with one entry per stage, 1:1 aligned; each stage's
hyperparameter result is the hyperparameter analysis applied to exactly the
lens/source galaxies that stage's model result just produced; the first model
analysis runs with the initial pixelization/instrumentation, and every later
model analysis runs with the previous stage's hyperparameter-result
pixelization/instrumentation. -/
theorem spec_C7_pipeline_chaining {Img Msk Pix Ins Lens Src : Type}
    (p : MainPipeline Img Msk Pix Ins Lens Src) (image : Img) (mask : Msk)
    (pixelization : Pix) (instrumentation : Ins) :
    (p.run image mask pixelization instrumentation).1.length = p.model_analyses.length
    ∧ (p.run image mask pixelization instrumentation).2.length = p.model_analyses.length
    ∧ (∀ (k : Nat) (mr : ModelResult Lens Src),
        (p.run image mask pixelization instrumentation).1[k]? = some mr →
        (p.run image mask pixelization instrumentation).2[k]? =
          some (p.hyperparameter_analysis image mask mr.lens_galaxies mr.source_galaxies))
    ∧ ((p.run image mask pixelization instrumentation).1[0]? =
        (p.model_analyses[0]?).map (fun ma => ma image mask pixelization instrumentation))
    ∧ (∀ (k : Nat) (hr : HyperResult Pix Ins)
          (ma : Img → Msk → Pix → Ins → ModelResult Lens Src),
        (p.run image mask pixelization instrumentation).2[k]? = some hr →
        p.model_analyses[k + 1]? = some ma →
        (p.run image mask pixelization instrumentation).1[k + 1]? =
          some (ma image mask hr.pixelization hr.instrumentation)) :=
  runFrom_props p image mask p.model_analyses pixelization instrumentation

/-- Witness for C7 on the concrete two-stage pipeline `pipeC7` run on image
10, mask 3, initial pixelization 1, instrumentation 2: stage 1 produces model
result (11, 3) and hyperparameter result (24, 14), and the theorem forces
stage 2's model analysis to consume pixelization 24 / instrumentation 14,
yielding model result (3 * 24, 14 + 2) = (72, 16). -/
theorem spec_C7_witness :
    (pipeC7.run 10 3 1 2).1[1]? = some ⟨72, 16⟩ :=
  (spec_C7_pipeline_chaining pipeC7 10 3 1 2).2.2.2.2 0 ⟨24, 14⟩
    (fun _ mask pixelization instrumentation =>
      ⟨mask * pixelization, instrumentation + 2⟩) rfl rfl

/-! ## Prior value mappings -/

/-- C8.  For every UniformPrior with limits (lo, hi): `value_for(unit)` is
`lo + unit * (hi - lo)`; in particular `value_for(0) = lo`,
`value_for(1) = hi`, and (for lo ≤ hi) `value_for` is monotone non-decreasing
in the unit.  (`s2`/`erfinv` stand for the external `sqrt(2)`/`erfinv`, which
the uniform branch never consults.) -/
theorem spec_C8_uniform_value_for (s2 : ℚ) (erfinv : ℚ → ℚ) (i : Nat)
    (lo hi : ℚ) :
    (∀ unit : ℚ, Prior.value_for s2 erfinv ⟨i, .uniform lo hi⟩ unit =
        lo + unit * (hi - lo))
    ∧ Prior.value_for s2 erfinv ⟨i, .uniform lo hi⟩ 0 = lo
    ∧ Prior.value_for s2 erfinv ⟨i, .uniform lo hi⟩ 1 = hi
    ∧ (∀ u1 u2 : ℚ, u1 ≤ u2 → lo ≤ hi →
        Prior.value_for s2 erfinv ⟨i, .uniform lo hi⟩ u1 ≤
          Prior.value_for s2 erfinv ⟨i, .uniform lo hi⟩ u2) := by
  refine ⟨fun unit => rfl, ?_, ?_, ?_⟩
  · show lo + 0 * (hi - lo) = lo
    ring
  · show lo + 1 * (hi - lo) = hi
    ring
  · intro u1 u2 hu hlh
    show lo + u1 * (hi - lo) ≤ lo + u2 * (hi - lo)
    nlinarith

/-- Witness for C8 at Uniform(3, 5): value_for(0) = 3, value_for(1) = 5, and
monotonicity applied at 0 ≤ 1. -/
theorem spec_C8_witness :
    Prior.value_for 0 (fun x => x) ⟨0, .uniform 3 5⟩ 0 = 3
    ∧ Prior.value_for 0 (fun x => x) ⟨0, .uniform 3 5⟩ 1 = 5
    ∧ Prior.value_for 0 (fun x => x) ⟨0, .uniform 3 5⟩ 0 ≤
        Prior.value_for 0 (fun x => x) ⟨0, .uniform 3 5⟩ 1 :=
  ⟨(spec_C8_uniform_value_for 0 (fun x => x) 0 3 5).2.1,
   (spec_C8_uniform_value_for 0 (fun x => x) 0 3 5).2.2.1,
   (spec_C8_uniform_value_for 0 (fun x => x) 0 3 5).2.2.2 0 1
     (by norm_num) (by norm_num)⟩

/-- C9.  For every GaussianPrior with parameters (mean, sigma), and the
defining facts of the inverse error function (`erfinv 0 = 0` and oddness):
`value_for(0.5) = mean` exactly (the embedding is exact rational arithmetic,
so "within floating-point tolerance" holds as equality), and for every offset
d with 0 < 0.5 + d < 1 the value is symmetric around 0.5:
`value_for(0.5 + d) - mean = -(value_for(0.5 - d) - mean)`. -/
theorem spec_C9_gaussian_symmetry (s2 : ℚ) (erfinv : ℚ → ℚ) (i : Nat)
    (mean sigma d : ℚ) (h0 : erfinv 0 = 0)
    (hodd : ∀ x : ℚ, erfinv (-x) = -erfinv x)
    (hd1 : 0 < 1 / 2 + d) (hd2 : 1 / 2 + d < 1) :
    Prior.value_for s2 erfinv ⟨i, .gaussian mean sigma⟩ (1 / 2) = mean
    ∧ Prior.value_for s2 erfinv ⟨i, .gaussian mean sigma⟩ (1 / 2 + d) - mean =
        -(Prior.value_for s2 erfinv ⟨i, .gaussian mean sigma⟩ (1 / 2 - d) - mean) := by
  constructor
  · show mean + sigma * s2 * erfinv (1 / 2 * 2 - 1) = mean
    rw [show (1 : ℚ) / 2 * 2 - 1 = 0 by ring, h0]
    ring
  · show mean + sigma * s2 * erfinv ((1 / 2 + d) * 2 - 1) - mean =
      -(mean + sigma * s2 * erfinv ((1 / 2 - d) * 2 - 1) - mean)
    rw [show ((1 : ℚ) / 2 + d) * 2 - 1 = d * 2 by ring,
      show ((1 : ℚ) / 2 - d) * 2 - 1 = -(d * 2) by ring, hodd]
    ring

/-- Witness for C9 with a concrete odd erfinv stand-in (the identity), mean 3,
sigma 2, offset 1/4. -/
theorem spec_C9_witness :
    Prior.value_for 1 (fun x => x) ⟨0, .gaussian 3 2⟩ (1 / 2) = 3
    ∧ Prior.value_for 1 (fun x => x) ⟨0, .gaussian 3 2⟩ (1 / 2 + 1 / 4) - 3 =
        -(Prior.value_for 1 (fun x => x) ⟨0, .gaussian 3 2⟩ (1 / 2 - 1 / 4) - 3) :=
  spec_C9_gaussian_symmetry 1 (fun x => x) 0 3 2 (1 / 4) rfl (fun _ => rfl)
    (by norm_num) (by norm_num)

/-! ## Shared default mapper objects -/

/-- C10.  Python evaluates default arguments once, when the `def` runs at
module load: every `ModelAnalysis` (resp. `HyperparameterAnalysis`,
`Analysis`) constructed without an explicit `model_mapper` /
`non_linear_optimizer` argument receives that class's single shared default
`ModelMapper` (and optimizer) object.  Consequently, constructing a second
such analysis of the same class mutates the mapper already in use by the
first: after two default-constructed ModelAnalyses, the shared mapper holds
the galaxy priors attached by both constructions, and after two
default-constructed HyperparameterAnalyses, the shared mapper holds both
pixelization/instrumentation class registrations.  The three per-class
default mappers are distinct objects. -/
theorem spec_C10_shared_default_mapper_mutation (l1 s1 l2 s2 : List Nat)
    (p1 i1 p2 i2 : Nat) (k1 k2 : List (String × PyVal)) :
    let ma1 := ModelAnalysis.init l1 s1 none none moduleLoadHeap
    let ma2 := ModelAnalysis.init l2 s2 none none ma1.2
    let ha1 := HyperparameterAnalysis.init p1 i1 none none ma2.2
    let ha2 := HyperparameterAnalysis.init p2 i2 none none ha1.2
    let an1 := Analysis.init k1 none none ha2.2
    let an2 := Analysis.init k2 none none an1.2
    ma1.1.model_mapper = ma2.1.model_mapper
    ∧ ma1.1.non_linear_optimizer = ma2.1.non_linear_optimizer
    ∧ ha1.1.model_mapper = ha2.1.model_mapper
    ∧ ha1.1.non_linear_optimizer = ha2.1.non_linear_optimizer
    ∧ an1.1.model_mapper = an2.1.model_mapper
    ∧ an1.1.non_linear_optimizer = an2.1.non_linear_optimizer
    ∧ ma2.2.mappers[ma1.1.model_mapper]? =
        some ((l1 ++ s1).map MapperEntry.galaxy ++ (l2 ++ s2).map MapperEntry.galaxy)
    ∧ ha2.2.mappers[ha1.1.model_mapper]? =
        some [MapperEntry.modelClass "pixelization" p1,
              MapperEntry.modelClass "instrumentation" i1,
              MapperEntry.modelClass "pixelization" p2,
              MapperEntry.modelClass "instrumentation" i2]
    ∧ ma1.1.model_mapper ≠ ha1.1.model_mapper
    ∧ ha1.1.model_mapper ≠ an1.1.model_mapper
    ∧ ma1.1.model_mapper ≠ an1.1.model_mapper := by
  simp [ModelAnalysis.init, HyperparameterAnalysis.init, Analysis.init,
    PyHeap.attach, moduleLoadHeap, modelAnalysisDefaultMapper,
    hyperparameterAnalysisDefaultMapper, analysisDefaultMapper,
    modelAnalysisDefaultOptimizer, hyperparameterAnalysisDefaultOptimizer,
    analysisDefaultOptimizer]

/-- Witness for C10: two concrete default-constructed ModelAnalyses — after
the second construction, the shared default mapper holds the galaxy priors of
both. -/
theorem spec_C10_witness :
    (ModelAnalysis.init [3] [4] none none
        (ModelAnalysis.init [1] [2] none none moduleLoadHeap).2).2.mappers[
      (ModelAnalysis.init [1] [2] none none moduleLoadHeap).1.model_mapper]? =
      some (([1] ++ [2]).map MapperEntry.galaxy ++ ([3] ++ [4]).map MapperEntry.galaxy) :=
  (spec_C10_shared_default_mapper_mutation [1] [2] [3] [4] 5 6 7 8 [] []).2.2.2.2.2.2.1

end AutoLens
